import Mathlib

/-!
Shallow embedding of the Vishay proximity/ambient-light sensor module
(src/Sensor.h, src/Sensor.c).  Machine integers are modelled as `Nat` with
explicit reduction modulo `2 ^ 32` (for `uint32_t` fields) and `2 ^ 16`
(for `uint16_t` fields) exactly where the C arithmetic can leave the range
of the type.  The C `double` values are modelled as exact rationals `ℚ`.
The two C fields `psSTD` and `alsSTD` hold `sqrt` of a nonnegative double;
an IEEE square root of a nonnegative double is zero exactly when its
argument is zero, so the state here stores the radicands `psSTDsq` and
`alsSTDsq`, and every test `psSTD == 0` / `alsSTD == 0` of the C code is
embedded as the corresponding test on the radicand.
-/

/-- SENSOR_HIST_LEN from Sensor.h line 29: length of the sensor value history. -/
def SENSOR_HIST_LEN : Nat := 50

/-- PS_WINDOW from Sensor.h line 32: length of the proximity window. -/
def PS_WINDOW : Nat := 25

/-- ALS_WINDOW from Sensor.h line 35: length of the ALS window. -/
def ALS_WINDOW : Nat := 25

/-- DIST_LOOKUP_LEN from Sensor.h line 38: length of the distanceTable array. -/
def DIST_LOOKUP_LEN : Nat := 16

/-- Modulus of `uint32_t` arithmetic. -/
def U32 : Nat := 2 ^ 32

/-- Modulus of `uint16_t` arithmetic. -/
def U16 : Nat := 2 ^ 16

/-- distanceTable from Sensor.c lines 19-25. -/
def distanceTable : List Nat :=
  [0, 2, 4, 6, 8, 10, 12, 14, 16, 18, 20, 22, 24, 26, 28, 30]

/-- The Sensor struct of Sensor.h lines 49-98.  Histories are total maps from
the `SENSOR_HIST_LEN` slot indices; `proxTable` is the borrowed calibration
table the `proxTable` pointer refers to. -/
structure Sensor where
  index : Nat
  sampleCount : Nat
  proxTable : List Nat
  psHist : Fin SENSOR_HIST_LEN → Nat
  alsHist : Fin SENSOR_HIST_LEN → Nat
  psMean : Nat
  psSTDsq : ℚ
  alsMean : Nat
  alsSTDsq : ℚ
  estimatedDistance : ℚ
  psProxMin : Nat
  psProxMax : Nat
  inProximity : Bool
  isBlocked : Bool
  psWindowSum : Nat
  alsWindowSum : Nat

/-- A history slot index reduced modulo SENSOR_HIST_LEN, as every history
index computation in Sensor.c does. -/
def histSlot (n : Nat) : Fin SENSOR_HIST_LEN :=
  ⟨n % SENSOR_HIST_LEN, Nat.mod_lt _ (by decide)⟩

/-- Reset_Sensor from Sensor.c lines 37-50. -/
def Reset_Sensor (s : Sensor) : Sensor :=
  { s with
    sampleCount := 0
    psMean := 0
    psSTDsq := 0
    alsMean := 0
    alsSTDsq := 0
    inProximity := false
    isBlocked := false
    psWindowSum := 0
    alsWindowSum := 0
    psHist := fun _ => 0
    alsHist := fun _ => 0 }

/-- Init_Sensor from Sensor.c lines 27-35: store identity, thresholds and the
table reference, then call Reset_Sensor. -/
def Init_Sensor (s : Sensor) (ix psProxMin psProxMax : Nat)
    (proxTable : List Nat) : Sensor :=
  Reset_Sensor
    { s with
      index := ix
      psProxMin := psProxMin
      psProxMax := psProxMax
      proxTable := proxTable }

/-- Value returned by the scan of Distance_Lookup when the first table entry
with `psVal >= proxTable[i]` is found at index `i` (Sensor.c lines 172-181):
the direct table value at index 0, otherwise the linear interpolation between
entries `i - 1` and `i`. -/
def lookupHitValue (psVal : Nat) (proxTable distTable : List Nat) (i : Nat) : ℚ :=
  if i = 0 then (distTable.getD 0 0 : ℚ)
  else
    (distTable.getD (i - 1) 0 : ℚ) +
      ((psVal : ℚ) - (proxTable.getD (i - 1) 0 : ℚ)) *
        ((distTable.getD i 0 : ℚ) - (distTable.getD (i - 1) 0 : ℚ)) /
        ((proxTable.getD i 0 : ℚ) - (proxTable.getD (i - 1) 0 : ℚ))

/-- The scan loop of Distance_Lookup (Sensor.c lines 170-186) starting at
index `i`.  When no entry with `psVal >= proxTable[i]` exists the function
falls through to `distTable[tableLen - 1]`, where `tableLen - 1` is computed
in `uint8_t` arithmetic, hence the `(tableLen + 255) % 256` index. -/
def Distance_LookupFrom (psVal : Nat) (proxTable distTable : List Nat)
    (tableLen i : Nat) : ℚ :=
  if h : i < tableLen then
    if proxTable.getD i 0 ≤ psVal then lookupHitValue psVal proxTable distTable i
    else Distance_LookupFrom psVal proxTable distTable tableLen (i + 1)
  else (distTable.getD ((tableLen + 255) % 256) 0 : ℚ)
termination_by tableLen - i
decreasing_by omega

/-- Distance_Lookup from Sensor.c lines 165-187. -/
def Distance_Lookup (psVal : Nat) (proxTable distTable : List Nat)
    (tableLen : Nat) : ℚ :=
  Distance_LookupFrom psVal proxTable distTable tableLen 0

/-- The scan loop of Distance_Lookup with every array access checked: the
function returns `none` as soon as an access falls outside the list that
models the array.  Used to settle the memory-safety claim. -/
def Distance_LookupCheckedFrom (psVal : Nat) (proxTable distTable : List Nat)
    (tableLen i : Nat) : Option ℚ :=
  if h : i < tableLen then
    match proxTable[i]? with
    | none => none
    | some p =>
      if p ≤ psVal then
        if i = 0 then (distTable[0]? : Option Nat).map (fun d => (d : ℚ))
        else
          match proxTable[i - 1]?, distTable[i]?, distTable[i - 1]? with
          | some p0, some d1, some d0 =>
              some ((d0 : ℚ) + ((psVal : ℚ) - (p0 : ℚ)) * ((d1 : ℚ) - (d0 : ℚ)) /
                ((p : ℚ) - (p0 : ℚ)))
          | _, _, _ => none
      else Distance_LookupCheckedFrom psVal proxTable distTable tableLen (i + 1)
  else (distTable[(tableLen + 255) % 256]? : Option Nat).map (fun d => (d : ℚ))
termination_by tableLen - i
decreasing_by omega

/-- Distance_Lookup with every array access checked against the table length. -/
def Distance_LookupChecked (psVal : Nat) (proxTable distTable : List Nat)
    (tableLen : Nat) : Option ℚ :=
  Distance_LookupCheckedFrom psVal proxTable distTable tableLen 0

/-- Effective divisor of the PS mean, Sensor.c lines 87-90: PS_WINDOW once
`sampleCount + 1` reaches it, `sampleCount + 1` while the window is filling.
The PS STD loop (lines 99-108) runs `i` from 0 while `i < PS_WINDOW` and
`sampleCount - i >= 0` holds, so its exit value of `i`, the STD divisor, is
this same number.  The loop compares via `(int) sensor->sampleCount`, which
agrees with this embedding as long as `sampleCount < 2 ^ 31`. -/
def psEff (s : Sensor) : Nat :=
  if s.sampleCount + 1 ≥ PS_WINDOW then PS_WINDOW else s.sampleCount + 1

/-- Effective divisor of the ALS mean and ALS STD, Sensor.c lines 112-115 and
121-130; the comparison `sampleCount >= ALS_WINDOW - 1` is the form used by
the source. -/
def alsEff (s : Sensor) : Nat :=
  if s.sampleCount ≥ ALS_WINDOW - 1 then ALS_WINDOW else s.sampleCount + 1

/-- The inProximity update of Sensor.c lines 134-150: exit on a raw sample at
or below psProxMin, enter on a raw sample at or above psProxMax, otherwise
keep the flag. -/
def inProxStep (b : Bool) (psProxMin psProxMax psVal : Nat) : Bool :=
  if b = true ∧ psVal ≤ psProxMin then false
  else if b = false ∧ psProxMax ≤ psVal then true
  else b

/-- The isBlocked update of Sensor.c lines 152-160, evaluated after the
inProximity update on the freshly computed ALS statistics; the test on the
C field alsSTD is the test on its radicand (see the header comment). -/
def blockedStep (blocked inProx : Bool) (alsMean : Nat) (alsSTDsq : ℚ) : Bool :=
  if blocked = false ∧ inProx = true ∧ alsMean = 0 ∧ alsSTDsq = 0 then true
  else if blocked = true ∧ inProx = false then false
  else blocked

/-- Update_Sensor from Sensor.c lines 52-163, in the order of the source:
rolling window sums, history store, PS mean, distance lookup, PS STD, ALS
mean, ALS STD, inProximity, isBlocked, sampleCount increment.  The uint32
subtractions of the window sums are taken in `Int` and reduced modulo
`2 ^ 32`; the uint16 store of the means reduces the floor modulo `2 ^ 16`. -/
def Update_Sensor (s : Sensor) (psVal alsVal : Nat) : Sensor :=
  let psWindowSum1 : Nat :=
    if s.sampleCount < PS_WINDOW then (s.psWindowSum + psVal) % U32
    else
      (((((s.psWindowSum : Int) -
            (s.psHist (histSlot (s.sampleCount - PS_WINDOW)) : Int)) % (U32 : Int)) +
          (psVal : Int)) % (U32 : Int)).toNat
  let alsWindowSum1 : Nat :=
    if s.sampleCount < ALS_WINDOW then (s.alsWindowSum + alsVal) % U32
    else
      (((s.alsWindowSum : Int) + (alsVal : Int) -
          (s.alsHist (histSlot (s.sampleCount - ALS_WINDOW)) : Int)) % (U32 : Int)).toNat
  let ind := histSlot s.sampleCount
  let psHist1 := Function.update s.psHist ind psVal
  let alsHist1 := Function.update s.alsHist ind alsVal
  let psMeanQ : ℚ := (psWindowSum1 : ℚ) / (psEff s : ℚ)
  let psMean1 : Nat := ⌊psMeanQ⌋₊ % U16
  let estimated : ℚ := Distance_Lookup psMean1 s.proxTable distanceTable DIST_LOOKUP_LEN
  let psErr : ℚ :=
    ∑ i ∈ Finset.range (psEff s), ((psHist1 (histSlot (s.sampleCount - i)) : ℚ) - psMeanQ) ^ 2
  let psSTDsq1 : ℚ := psErr / (psEff s : ℚ)
  let alsMeanQ : ℚ := (alsWindowSum1 : ℚ) / (alsEff s : ℚ)
  let alsMean1 : Nat := ⌊alsMeanQ⌋₊ % U16
  let alsErr : ℚ :=
    ∑ i ∈ Finset.range (alsEff s), ((alsHist1 (histSlot (s.sampleCount - i)) : ℚ) - alsMeanQ) ^ 2
  let alsSTDsq1 : ℚ := alsErr / (alsEff s : ℚ)
  let inProx1 : Bool := inProxStep s.inProximity s.psProxMin s.psProxMax psVal
  let isBlocked1 : Bool := blockedStep s.isBlocked inProx1 alsMean1 alsSTDsq1
  { index := s.index
    sampleCount := (s.sampleCount + 1) % U32
    proxTable := s.proxTable
    psHist := psHist1
    alsHist := alsHist1
    psMean := psMean1
    psSTDsq := psSTDsq1
    alsMean := alsMean1
    alsSTDsq := alsSTDsq1
    estimatedDistance := estimated
    psProxMin := s.psProxMin
    psProxMax := s.psProxMax
    inProximity := inProx1
    isBlocked := isBlocked1
    psWindowSum := psWindowSum1
    alsWindowSum := alsWindowSum1 }

/-- Fold Update_Sensor over a list of (psVal, alsVal) sample pairs. -/
def runUpdates (s : Sensor) (xs : List (Nat × Nat)) : Sensor :=
  xs.foldl (fun t p => Update_Sensor t p.1 p.2) s

/-- Proximity channel of a sample sequence. -/
def psList (xs : List (Nat × Nat)) : List Nat := xs.map Prod.fst

/-- Ambient-light channel of a sample sequence. -/
def alsList (xs : List (Nat × Nat)) : List Nat := xs.map Prod.snd

/-- Spec-side brute force: the last `min (length, w)` elements of a list. -/
def lastWindow (w : Nat) (l : List Nat) : List Nat := l.drop (l.length - w)

/-- Spec-side brute force: the exact (untruncated) mean over the active
window. -/
def windowMean (w : Nat) (l : List Nat) : ℚ :=
  ((lastWindow w l).sum : ℚ) / ((lastWindow w l).length : ℚ)

/-- Spec-side brute force: the mean squared deviation of the active window
from its exact mean. -/
def windowVariance (w : Nat) (l : List Nat) : ℚ :=
  ((lastWindow w l).map (fun x : Nat => ((x : ℚ) - windowMean w l) ^ 2)).sum /
    ((lastWindow w l).length : ℚ)

/-- A completely zeroed sensor record, used for concrete evaluations. -/
def zeroSensor : Sensor :=
  { index := 0
    sampleCount := 0
    proxTable := []
    psHist := fun _ => 0
    alsHist := fun _ => 0
    psMean := 0
    psSTDsq := 0
    alsMean := 0
    alsSTDsq := 0
    estimatedDistance := 0
    psProxMin := 0
    psProxMax := 0
    inProximity := false
    isBlocked := false
    psWindowSum := 0
    alsWindowSum := 0 }

/-- A sensor with the hysteresis thresholds 5 and 10 of the end-to-end
scenario. -/
def c2Base : Sensor := { zeroSensor with psProxMin := 5, psProxMax := 10 }

/-- The nine sample pairs of the end-to-end scenario: proximity
[0,0,0,12,12,12,4,4,4] with constant ambient 50. -/
def c4Inputs : List (Nat × Nat) :=
  [(0, 50), (0, 50), (0, 50), (12, 50), (12, 50), (12, 50), (4, 50), (4, 50), (4, 50)]

/-- A descending 16-entry calibration table for the end-to-end scenario. -/
def c4Table : List Nat :=
  [150, 140, 130, 120, 110, 100, 90, 80, 70, 60, 50, 40, 30, 20, 10, 0]

/-- The inProximity values observed after each update of a sample sequence. -/
def flagTrace (s : Sensor) (xs : List (Nat × Nat)) : List Bool :=
  (List.range xs.length).map (fun k => (runUpdates s (xs.take (k + 1))).inProximity)

/-- Invariant tying a sensor state to the sample sequence processed since the
last reset: the counter is the number of samples, the last up to
SENSOR_HIST_LEN samples sit in their history slots, and both window sums are
the exact sums of the active windows. -/
structure SInv (xs : List (Nat × Nat)) (s : Sensor) : Prop where
  count : s.sampleCount = xs.length
  ps_hist : ∀ i, i < xs.length → xs.length ≤ i + SENSOR_HIST_LEN →
    s.psHist (histSlot i) = (psList xs).getD i 0
  als_hist : ∀ i, i < xs.length → xs.length ≤ i + SENSOR_HIST_LEN →
    s.alsHist (histSlot i) = (alsList xs).getD i 0
  ps_sum : s.psWindowSum = (lastWindow PS_WINDOW (psList xs)).sum
  als_sum : s.alsWindowSum = (lastWindow ALS_WINDOW (alsList xs)).sum

/-! Projection lemmas for Update_Sensor: each field of the updated record,
stated against the corresponding source lines. -/

theorem update_sampleCount (s : Sensor) (p a : Nat) :
    (Update_Sensor s p a).sampleCount = (s.sampleCount + 1) % U32 := rfl

theorem update_proxTable (s : Sensor) (p a : Nat) :
    (Update_Sensor s p a).proxTable = s.proxTable := rfl

theorem update_psProxMin (s : Sensor) (p a : Nat) :
    (Update_Sensor s p a).psProxMin = s.psProxMin := rfl

theorem update_psProxMax (s : Sensor) (p a : Nat) :
    (Update_Sensor s p a).psProxMax = s.psProxMax := rfl

theorem update_psHist (s : Sensor) (p a : Nat) :
    (Update_Sensor s p a).psHist = Function.update s.psHist (histSlot s.sampleCount) p := rfl

theorem update_alsHist (s : Sensor) (p a : Nat) :
    (Update_Sensor s p a).alsHist = Function.update s.alsHist (histSlot s.sampleCount) a := rfl

theorem update_psWindowSum (s : Sensor) (p a : Nat) :
    (Update_Sensor s p a).psWindowSum =
      if s.sampleCount < PS_WINDOW then (s.psWindowSum + p) % U32
      else
        (((((s.psWindowSum : Int) -
              (s.psHist (histSlot (s.sampleCount - PS_WINDOW)) : Int)) % (U32 : Int)) +
            (p : Int)) % (U32 : Int)).toNat := rfl

theorem update_alsWindowSum (s : Sensor) (p a : Nat) :
    (Update_Sensor s p a).alsWindowSum =
      if s.sampleCount < ALS_WINDOW then (s.alsWindowSum + a) % U32
      else
        (((s.alsWindowSum : Int) + (a : Int) -
            (s.alsHist (histSlot (s.sampleCount - ALS_WINDOW)) : Int)) % (U32 : Int)).toNat := rfl

theorem update_psMean (s : Sensor) (p a : Nat) :
    (Update_Sensor s p a).psMean =
      ⌊((Update_Sensor s p a).psWindowSum : ℚ) / (psEff s : ℚ)⌋₊ % U16 := rfl

theorem update_alsMean (s : Sensor) (p a : Nat) :
    (Update_Sensor s p a).alsMean =
      ⌊((Update_Sensor s p a).alsWindowSum : ℚ) / (alsEff s : ℚ)⌋₊ % U16 := rfl

theorem update_psSTDsq (s : Sensor) (p a : Nat) :
    (Update_Sensor s p a).psSTDsq =
      (∑ i ∈ Finset.range (psEff s),
        (((Update_Sensor s p a).psHist (histSlot (s.sampleCount - i)) : ℚ) -
          ((Update_Sensor s p a).psWindowSum : ℚ) / (psEff s : ℚ)) ^ 2) / (psEff s : ℚ) := rfl

theorem update_alsSTDsq (s : Sensor) (p a : Nat) :
    (Update_Sensor s p a).alsSTDsq =
      (∑ i ∈ Finset.range (alsEff s),
        (((Update_Sensor s p a).alsHist (histSlot (s.sampleCount - i)) : ℚ) -
          ((Update_Sensor s p a).alsWindowSum : ℚ) / (alsEff s : ℚ)) ^ 2) / (alsEff s : ℚ) := rfl

theorem update_estimatedDistance (s : Sensor) (p a : Nat) :
    (Update_Sensor s p a).estimatedDistance =
      Distance_Lookup (Update_Sensor s p a).psMean s.proxTable distanceTable DIST_LOOKUP_LEN := rfl

theorem update_inProximity (s : Sensor) (p a : Nat) :
    (Update_Sensor s p a).inProximity =
      inProxStep s.inProximity s.psProxMin s.psProxMax p := rfl

theorem update_isBlocked (s : Sensor) (p a : Nat) :
    (Update_Sensor s p a).isBlocked =
      blockedStep s.isBlocked (Update_Sensor s p a).inProximity
        (Update_Sensor s p a).alsMean (Update_Sensor s p a).alsSTDsq := rfl

theorem blockedStep_of_not_inProx (b : Bool) (m : Nat) (q : ℚ) :
    blockedStep b false m q = false := by
  cases b <;> simp [blockedStep]

theorem runUpdates_nil (s : Sensor) : runUpdates s [] = s := rfl

theorem runUpdates_cons (s : Sensor) (p : Nat × Nat) (xs : List (Nat × Nat)) :
    runUpdates s (p :: xs) = runUpdates (Update_Sensor s p.1 p.2) xs := rfl

theorem runUpdates_append_single (s : Sensor) (xs : List (Nat × Nat)) (p : Nat × Nat) :
    runUpdates s (xs ++ [p]) = Update_Sensor (runUpdates s xs) p.1 p.2 := by
  simp [runUpdates, List.foldl_append]

theorem runUpdates_inProximity (xs : List (Nat × Nat)) :
    ∀ s : Sensor, (runUpdates s xs).inProximity =
      xs.foldl (fun b q => inProxStep b s.psProxMin s.psProxMax q.1) s.inProximity := by
  induction xs with
  | nil => intro s; rfl
  | cons p xs ih =>
    intro s
    rw [runUpdates_cons, ih (Update_Sensor s p.1 p.2)]
    rfl

/-- C8: Reset_Sensor zeroes the sample count, both window sums, both means,
both standard deviations (their radicands), every slot of both history
buffers and both flags, leaves the identity, the thresholds and the table
reference unchanged, and is idempotent. -/
theorem reset_zeroes_statistics (s : Sensor) :
    (Reset_Sensor s).sampleCount = 0 ∧
    (Reset_Sensor s).psWindowSum = 0 ∧
    (Reset_Sensor s).alsWindowSum = 0 ∧
    (Reset_Sensor s).psMean = 0 ∧
    (Reset_Sensor s).psSTDsq = 0 ∧
    (Reset_Sensor s).alsMean = 0 ∧
    (Reset_Sensor s).alsSTDsq = 0 ∧
    (∀ j, (Reset_Sensor s).psHist j = 0) ∧
    (∀ j, (Reset_Sensor s).alsHist j = 0) ∧
    (Reset_Sensor s).inProximity = false ∧
    (Reset_Sensor s).isBlocked = false ∧
    (Reset_Sensor s).index = s.index ∧
    (Reset_Sensor s).psProxMin = s.psProxMin ∧
    (Reset_Sensor s).psProxMax = s.psProxMax ∧
    (Reset_Sensor s).proxTable = s.proxTable ∧
    Reset_Sensor (Reset_Sensor s) = Reset_Sensor s := by
  refine ⟨rfl, rfl, rfl, rfl, rfl, rfl, rfl, fun j => rfl, fun j => rfl,
    rfl, rfl, rfl, rfl, rfl, rfl, rfl⟩

/-- C9: neither Reset_Sensor nor Init_Sensor writes estimatedDistance — both
leave the field holding whatever value the record held before — and
Update_Sensor is the operation that assigns it (to the distance lookup of
the fresh proximity mean). -/
theorem reset_and_init_preserve_estimatedDistance (s : Sensor)
    (ix mn mx : Nat) (t : List Nat) (p a : Nat) :
    (Reset_Sensor s).estimatedDistance = s.estimatedDistance ∧
    (Init_Sensor s ix mn mx t).estimatedDistance = s.estimatedDistance ∧
    (Update_Sensor s p a).estimatedDistance =
      Distance_Lookup (Update_Sensor s p a).psMean (Update_Sensor s p a).proxTable
        distanceTable DIST_LOOKUP_LEN := by
  exact ⟨rfl, rfl, rfl⟩

/-- C3: a raw proximity sample strictly between the exit threshold psProxMin
and the enter threshold psProxMax leaves the inProximity flag of any state
unchanged, whatever the window statistics are. -/
theorem hysteresis_band_holds_flag (s : Sensor) (p a : Nat)
    (h1 : s.psProxMin < p) (h2 : p < s.psProxMax) :
    (Update_Sensor s p a).inProximity = s.inProximity := by
  rw [update_inProximity]
  have hx : ¬ (p ≤ s.psProxMin) := by omega
  have hy : ¬ (s.psProxMax ≤ p) := by omega
  simp [inProxStep, hx, hy]

/-- Witness for C3 at a concrete state with thresholds 5 and 10 and sample 7. -/
theorem hysteresis_band_holds_flag_witness :
    (Update_Sensor c2Base 7 3).inProximity = c2Base.inProximity :=
  hysteresis_band_holds_flag c2Base 7 3 (by decide) (by decide)

/-- C2: after any update the flags are mutually consistent — whenever the
updated inProximity is false the updated isBlocked is false (so isBlocked
implies inProximity along every trace from a reset state), isBlocked becomes
set only in a call whose resulting inProximity is true, and any call leaving
inProximity false clears isBlocked. -/
theorem blocked_implies_inProximity (s0 : Sensor) :
    (∀ xs : List (Nat × Nat),
      (runUpdates (Reset_Sensor s0) xs).isBlocked = true →
        (runUpdates (Reset_Sensor s0) xs).inProximity = true) ∧
    (∀ (t : Sensor) (p a : Nat),
      (Update_Sensor t p a).inProximity = false → (Update_Sensor t p a).isBlocked = false) ∧
    (∀ (t : Sensor) (p a : Nat), t.isBlocked = false →
      (Update_Sensor t p a).isBlocked = true → (Update_Sensor t p a).inProximity = true) := by
  have hstep : ∀ (t : Sensor) (p a : Nat),
      (Update_Sensor t p a).inProximity = false → (Update_Sensor t p a).isBlocked = false := by
    intro t p a h
    rw [update_isBlocked, h]
    exact blockedStep_of_not_inProx _ _ _
  refine ⟨?_, hstep, ?_⟩
  · intro xs
    rcases List.eq_nil_or_concat' xs with rfl | ⟨ys, p, rfl⟩
    · intro h
      exact absurd h (by simp [runUpdates_nil, Reset_Sensor])
    · rw [runUpdates_append_single]
      intro h
      by_contra hfalse
      rw [Bool.not_eq_true] at hfalse
      rw [hstep _ _ _ hfalse] at h
      exact Bool.false_ne_true h
  · intro t p a hb hset
    by_contra hfalse
    rw [Bool.not_eq_true] at hfalse
    rw [hstep _ _ _ hfalse] at hset
    exact Bool.false_ne_true hset

/-- Witness for C2: a trace that actually sets isBlocked (proximity sample 12
above the enter threshold, ambient sample 0), on which the theorem yields
inProximity. -/
theorem blocked_implies_inProximity_witness :
    (runUpdates (Reset_Sensor c2Base) [(12, 0)]).inProximity = true :=
  (blocked_implies_inProximity c2Base).1 [(12, 0)] (by with_unfolding_all decide)

/-- C4 counterexample: with the end-to-end configuration (exit threshold 5,
enter threshold 10, proximity samples [0,0,0,12,12,12,4,4,4], constant
ambient 50) the observed inProximity trace differs from the claimed
[F,F,F,T,T,T,T,T,F]: the exit rule `psVal <= psProxMin` already fires at
sample index 6, the first sample with value 4. -/
theorem spec_trace_flag_counterexample :
    flagTrace (Init_Sensor zeroSensor 0 5 10 c4Table) c4Inputs ≠
      [false, false, false, true, true, true, true, true, false] := by
  have h : ∀ k, (runUpdates (Init_Sensor zeroSensor 0 5 10 c4Table)
        (c4Inputs.take (k + 1))).inProximity =
      (c4Inputs.take (k + 1)).foldl (fun b q => inProxStep b 5 10 q.1) false := by
    intro k
    rw [runUpdates_inProximity]
    rfl
  simp only [flagTrace, h]
  decide

/-- C4 amended: for every initial record and every calibration table, the
end-to-end scenario with exit threshold 5 and enter threshold 10 on
proximity samples [0,0,0,12,12,12,4,4,4] with constant ambient 50 yields
the inProximity trace [F,F,F,T,T,T,F,F,F] — entering at sample index 3 and
exiting at sample index 6, the first sample whose value 4 is at or below
the exit threshold 5. -/
theorem hysteresis_trace_flags (s : Sensor) (ix : Nat) (t : List Nat) :
    flagTrace (Init_Sensor s ix 5 10 t) c4Inputs =
      [false, false, false, true, true, true, false, false, false] := by
  have h : ∀ k, (runUpdates (Init_Sensor s ix 5 10 t)
        (c4Inputs.take (k + 1))).inProximity =
      (c4Inputs.take (k + 1)).foldl (fun b q => inProxStep b 5 10 q.1) false := by
    intro k
    rw [runUpdates_inProximity]
    rfl
  simp only [flagTrace, h]
  decide

theorem lookupFrom_fallback (psVal : Nat) (pt dt : List Nat) (len i : Nat)
    (h : len ≤ i) :
    Distance_LookupFrom psVal pt dt len i = (dt.getD ((len + 255) % 256) 0 : ℚ) := by
  rw [Distance_LookupFrom.eq_def]
  rw [dif_neg (Nat.not_lt.mpr h)]

theorem lookupFrom_hit (psVal : Nat) (pt dt : List Nat) (len i : Nat)
    (h : i < len) (hle : pt.getD i 0 ≤ psVal) :
    Distance_LookupFrom psVal pt dt len i = lookupHitValue psVal pt dt i := by
  rw [Distance_LookupFrom.eq_def]
  rw [dif_pos h, if_pos hle]

theorem lookupFrom_skip (psVal : Nat) (pt dt : List Nat) (len i : Nat)
    (h : i < len) (hgt : psVal < pt.getD i 0) :
    Distance_LookupFrom psVal pt dt len i =
      Distance_LookupFrom psVal pt dt len (i + 1) := by
  rw [Distance_LookupFrom.eq_def]
  rw [dif_pos h, if_neg (Nat.not_le.mpr hgt)]

theorem lookupFrom_congr_miss (psVal : Nat) (pt dt : List Nat) (len : Nat) :
    ∀ d i, (∀ j, i ≤ j → j < i + d → psVal < pt.getD j 0) → i + d ≤ len →
      Distance_LookupFrom psVal pt dt len i = Distance_LookupFrom psVal pt dt len (i + d) := by
  intro d
  induction d with
  | zero => intro i _ _; rfl
  | succ d ih =>
    intro i hmiss hlen
    have h1 : Distance_LookupFrom psVal pt dt len i =
        Distance_LookupFrom psVal pt dt len (i + 1) :=
      lookupFrom_skip psVal pt dt len i (by omega) (hmiss i (by omega) (by omega))
    have h2 : Distance_LookupFrom psVal pt dt len (i + 1) =
        Distance_LookupFrom psVal pt dt len (i + 1 + d) :=
      ih (i + 1) (fun j hj hj2 => hmiss j (by omega) (by omega)) (by omega)
    rw [h1, h2]
    congr 1
    omega

/-- C5: characterization of Distance_Lookup on parallel tables of length
tableLen (at most 255, the range of the uint8 length argument): the direct
value at index 0 when psVal is at or above the first entry, the linear
interpolation between entries i-1 and i when i is the smallest index with
`psVal >= proxTable[i]`, and the last distance entry when every comparison
fails. -/
theorem distance_lookup_characterization (psVal : Nat) (pt dt : List Nat)
    (len : Nat) (h1 : 1 ≤ len) (h255 : len ≤ 255)
    (hp : pt.length = len) (hd : dt.length = len) :
    (pt.getD 0 0 ≤ psVal → Distance_Lookup psVal pt dt len = (dt.getD 0 0 : ℚ)) ∧
    (∀ i, 0 < i → i < len → pt.getD i 0 ≤ psVal →
      (∀ j, j < i → psVal < pt.getD j 0) →
      Distance_Lookup psVal pt dt len =
        (dt.getD (i - 1) 0 : ℚ) +
          ((psVal : ℚ) - (pt.getD (i - 1) 0 : ℚ)) *
            ((dt.getD i 0 : ℚ) - (dt.getD (i - 1) 0 : ℚ)) /
            ((pt.getD i 0 : ℚ) - (pt.getD (i - 1) 0 : ℚ))) ∧
    ((∀ i, i < len → psVal < pt.getD i 0) →
      Distance_Lookup psVal pt dt len = (dt.getD (len - 1) 0 : ℚ)) := by
  refine ⟨?_, ?_, ?_⟩
  · intro hle
    rw [Distance_Lookup, lookupFrom_hit psVal pt dt len 0 (by omega) hle]
    simp [lookupHitValue]
  · intro i hi0 hilen hle hmiss
    have hreach : Distance_LookupFrom psVal pt dt len 0 =
        Distance_LookupFrom psVal pt dt len i := by
      have := lookupFrom_congr_miss psVal pt dt len i 0
        (fun j hj hj2 => hmiss j (by omega)) (by omega)
      simpa using this
    rw [Distance_Lookup, hreach, lookupFrom_hit psVal pt dt len i hilen hle]
    simp [lookupHitValue, Nat.pos_iff_ne_zero.mp hi0]
  · intro hmiss
    have hreach : Distance_LookupFrom psVal pt dt len 0 =
        Distance_LookupFrom psVal pt dt len len := by
      have := lookupFrom_congr_miss psVal pt dt len len 0
        (fun j hj hj2 => hmiss j (by omega)) (by omega)
      simpa using this
    rw [Distance_Lookup, hreach, lookupFrom_fallback psVal pt dt len len (by omega)]
    congr 2
    omega

/-- Witness for C5 on the toy linear table of the spec: psVal 25 hits index 1
and interpolates to 25. -/
theorem distance_lookup_characterization_witness :
    Distance_Lookup 25 [30, 20, 10, 0] [30, 20, 10, 0] 4 = 25 := by
  have h := (distance_lookup_characterization 25 [30, 20, 10, 0] [30, 20, 10, 0] 4
    (by decide) (by decide) (by decide) (by decide)).2.1 1 (by decide) (by decide)
    (by decide) (by decide)
  rw [h]
  norm_num [List.getD]

theorem getElem?_eq_some_getD (l : List Nat) (n : Nat) (h : n < l.length) :
    l[n]? = some (l.getD n 0) := by
  rw [List.getElem?_eq_getElem h, List.getD_eq_getElem l 0 h]

theorem checkedFrom_eq_some (psVal : Nat) (pt dt : List Nat) (len : Nat)
    (hp : pt.length = len) (hd : dt.length = len)
    (h1 : 1 ≤ len) (h255 : len ≤ 255) :
    ∀ d i, len ≤ i + d →
      Distance_LookupCheckedFrom psVal pt dt len i =
        some (Distance_LookupFrom psVal pt dt len i) := by
  intro d
  induction d with
  | zero =>
    intro i hi
    rw [Distance_LookupCheckedFrom.eq_def, dif_neg (by omega : ¬ i < len),
      lookupFrom_fallback psVal pt dt len i (by omega)]
    have hidx : (len + 255) % 256 < dt.length := by omega
    rw [getElem?_eq_some_getD dt _ hidx]
    rfl
  | succ d ih =>
    intro i hi
    by_cases hlt : i < len
    · rw [Distance_LookupCheckedFrom.eq_def, dif_pos hlt,
        getElem?_eq_some_getD pt i (by omega)]
      by_cases hle : pt.getD i 0 ≤ psVal
      · rw [lookupFrom_hit psVal pt dt len i hlt hle]
        by_cases hi0 : i = 0
        · subst hi0
          simp only [if_pos hle, if_pos rfl]
          rw [getElem?_eq_some_getD dt 0 (by omega)]
          simp [lookupHitValue]
        · simp only [if_pos hle, if_neg hi0]
          rw [getElem?_eq_some_getD pt (i - 1) (by omega),
            getElem?_eq_some_getD dt i (by omega),
            getElem?_eq_some_getD dt (i - 1) (by omega)]
          simp [lookupHitValue, hi0]
      · simp only [if_neg hle]
        rw [lookupFrom_skip psVal pt dt len i hlt (by omega)]
        exact ih (i + 1) (by omega)
    · rw [Distance_LookupCheckedFrom.eq_def, dif_neg hlt,
        lookupFrom_fallback psVal pt dt len i (by omega)]
      have hidx : (len + 255) % 256 < dt.length := by omega
      rw [getElem?_eq_some_getD dt _ hidx]
      rfl

/-- C10: with a positive uint8 table length and parallel tables of exactly
that length, every array access of Distance_Lookup is in bounds — the fully
checked scan returns `some` of the unchecked result — while for a call with
tableLen 0 the no-match fallback reads index `tableLen - 1`, which wraps to
255 in uint8 arithmetic and is out of bounds, so the checked scan returns
`none`. -/
theorem distance_lookup_memory_safety (psVal : Nat) (pt dt : List Nat)
    (len : Nat) (h1 : 1 ≤ len) (h255 : len ≤ 255)
    (hp : pt.length = len) (hd : dt.length = len) :
    Distance_LookupChecked psVal pt dt len =
      some (Distance_Lookup psVal pt dt len) ∧
    Distance_LookupChecked psVal [] [] 0 = none := by
  constructor
  · exact checkedFrom_eq_some psVal pt dt len hp hd h1 h255 len 0 (by omega)
  · rw [Distance_LookupChecked, Distance_LookupCheckedFrom.eq_def]
    simp

/-- Witness for C10 on the toy table of length 4. -/
theorem distance_lookup_memory_safety_witness :
    Distance_LookupChecked 25 [30, 20, 10, 0] [30, 20, 10, 0] 4 =
      some (Distance_Lookup 25 [30, 20, 10, 0] [30, 20, 10, 0] 4) ∧
    Distance_LookupChecked 25 [] [] 0 = none :=
  distance_lookup_memory_safety 25 [30, 20, 10, 0] [30, 20, 10, 0] 4
    (by decide) (by decide) (by decide) (by decide)

theorem psList_length (xs : List (Nat × Nat)) : (psList xs).length = xs.length := by
  simp [psList]

theorem alsList_length (xs : List (Nat × Nat)) : (alsList xs).length = xs.length := by
  simp [alsList]

theorem psList_append (xs ys : List (Nat × Nat)) :
    psList (xs ++ ys) = psList xs ++ psList ys := by
  simp [psList]

theorem alsList_append (xs ys : List (Nat × Nat)) :
    alsList (xs ++ ys) = alsList xs ++ alsList ys := by
  simp [alsList]

theorem lastWindow_length (w : Nat) (l : List Nat) :
    (lastWindow w l).length = min l.length w := by
  simp only [lastWindow, List.length_drop]
  omega

theorem lastWindow_subset (w : Nat) (l : List Nat) :
    ∀ x ∈ lastWindow w l, x ∈ l := fun _ hx =>
  (List.drop_sublist _ _).subset hx

theorem lastWindow_sum_le (w : Nat) (l : List Nat) (c : Nat)
    (h : ∀ x ∈ l, x ≤ c) : (lastWindow w l).sum ≤ w * c := by
  have h1 : (lastWindow w l).sum ≤ (lastWindow w l).length • c :=
    List.sum_le_card_nsmul _ _ (fun x hx => h x (lastWindow_subset w l x hx))
  have h2 : (lastWindow w l).length ≤ w := by
    rw [lastWindow_length]
    omega
  calc (lastWindow w l).sum ≤ (lastWindow w l).length • c := h1
    _ = (lastWindow w l).length * c := by simp [nsmul_eq_mul]
    _ ≤ w * c := Nat.mul_le_mul_right c h2

theorem lastWindow_self_of_le (w : Nat) (l : List Nat) (h : l.length ≤ w) :
    lastWindow w l = l := by
  rw [lastWindow, Nat.sub_eq_zero_of_le h, List.drop_zero]

theorem lastWindow_sum_slide (w : Nat) (l : List Nat) (a : Nat)
    (hw : 0 < w) (h : w ≤ l.length) :
    (lastWindow w (l ++ [a])).sum + l.getD (l.length - w) 0 =
      (lastWindow w l).sum + a := by
  have h1 : lastWindow w (l ++ [a]) = l.drop (l.length - w + 1) ++ [a] := by
    rw [lastWindow]
    have he : (l ++ [a]).length - w = l.length - w + 1 := by
      rw [List.length_append]
      simp
      omega
    rw [he, List.drop_append_of_le_length (by omega)]
  have h3 : l.drop (l.length - w) =
      l.getD (l.length - w) 0 :: l.drop (l.length - w + 1) := by
    rw [List.getD_eq_getElem l 0 (by omega)]
    exact List.drop_eq_getElem_cons (by omega)
  have key : (lastWindow w l).sum =
      l.getD (l.length - w) 0 + (l.drop (l.length - w + 1)).sum := by
    rw [lastWindow, h3, List.sum_cons]
  rw [h1, List.sum_append, key]
  simp
  omega

theorem SInv_nil (s : Sensor) : SInv [] (Reset_Sensor s) := by
  refine ⟨rfl, ?_, ?_, rfl, rfl⟩ <;>
    · intro i hi _
      exact absurd hi (by simp)

theorem psList_concat (xs : List (Nat × Nat)) (p : Nat × Nat) :
    psList (xs ++ [p]) = psList xs ++ [p.1] := by
  simp [psList]

theorem alsList_concat (xs : List (Nat × Nat)) (p : Nat × Nat) :
    alsList (xs ++ [p]) = alsList xs ++ [p.2] := by
  simp [alsList]

theorem SInv_step (xs : List (Nat × Nat)) (p : Nat × Nat) (s : Sensor)
    (hb : ∀ q ∈ xs, q.1 < U16 ∧ q.2 < U16) (hp1 : p.1 < U16) (hp2 : p.2 < U16)
    (hlen : xs.length + 1 < U32) (h : SInv xs s) :
    SInv (xs ++ [p]) (Update_Sensor s p.1 p.2) := by
  have eU32 : U32 = 4294967296 := rfl
  have eU16 : U16 = 65536 := rfl
  have eW : PS_WINDOW = 25 := rfl
  have eWa : ALS_WINDOW = 25 := rfl
  have e50 : SENSOR_HIST_LEN = 50 := rfl
  have hcount := h.count
  have hLlen : (psList xs).length = xs.length := psList_length xs
  have hAlen : (alsList xs).length = xs.length := alsList_length xs
  have hpsb : ∀ x ∈ psList xs, x ≤ 65535 := by
    intro x hx
    rcases List.mem_map.mp hx with ⟨q, hq, rfl⟩
    have := (hb q hq).1
    omega
  have halsb : ∀ x ∈ alsList xs, x ≤ 65535 := by
    intro x hx
    rcases List.mem_map.mp hx with ⟨q, hq, rfl⟩
    have := (hb q hq).2
    omega
  refine ⟨?_, ?_, ?_, ?_, ?_⟩
  · rw [update_sampleCount, hcount, List.length_append]
    simp only [List.length_singleton]
    exact Nat.mod_eq_of_lt (by omega)
  · intro i hi hup
    rw [List.length_append, List.length_singleton] at hi hup
    rw [update_psHist, psList_concat, hcount]
    rcases Nat.lt_or_ge i xs.length with hilt | hige
    · have hne : histSlot i ≠ histSlot xs.length := by
        intro hEq
        have hv : i % SENSOR_HIST_LEN = xs.length % SENSOR_HIST_LEN :=
          congrArg Fin.val hEq
        rw [e50] at hv
        omega
      rw [Function.update_noteq hne]
      rw [List.getD_append _ _ _ _ (by omega)]
      exact h.ps_hist i hilt (by omega)
    · have hieq : i = xs.length := by omega
      subst hieq
      rw [Function.update_same]
      rw [List.getD_append_right _ _ _ _ (by omega)]
      simp [hLlen]
  · intro i hi hup
    rw [List.length_append, List.length_singleton] at hi hup
    rw [update_alsHist, alsList_concat, hcount]
    rcases Nat.lt_or_ge i xs.length with hilt | hige
    · have hne : histSlot i ≠ histSlot xs.length := by
        intro hEq
        have hv : i % SENSOR_HIST_LEN = xs.length % SENSOR_HIST_LEN :=
          congrArg Fin.val hEq
        rw [e50] at hv
        omega
      rw [Function.update_noteq hne]
      rw [List.getD_append _ _ _ _ (by omega)]
      exact h.als_hist i hilt (by omega)
    · have hieq : i = xs.length := by omega
      subst hieq
      rw [Function.update_same]
      rw [List.getD_append_right _ _ _ _ (by omega)]
      simp [hAlen]
  · rw [update_psWindowSum, hcount, psList_concat]
    by_cases hfill : xs.length < PS_WINDOW
    · rw [if_pos hfill, h.ps_sum]
      have hself : lastWindow PS_WINDOW (psList xs) = psList xs :=
        lastWindow_self_of_le _ _ (by omega)
      have hself2 : lastWindow PS_WINDOW (psList xs ++ [p.1]) = psList xs ++ [p.1] :=
        lastWindow_self_of_le _ _ (by rw [List.length_append, List.length_singleton]; omega)
      have hsum : (psList xs).sum ≤ xs.length * 65535 := by
        have hs := List.sum_le_card_nsmul (psList xs) 65535 hpsb
        rw [smul_eq_mul, hLlen] at hs
        exact hs
      rw [hself, hself2, List.sum_append, List.sum_singleton]
      exact Nat.mod_eq_of_lt (by omega)
    · rw [if_neg hfill]
      have hev := h.ps_hist (xs.length - PS_WINDOW) (by omega) (by omega)
      rw [hev, h.ps_sum]
      have hslide := lastWindow_sum_slide PS_WINDOW (psList xs) p.1 (by omega) (by omega)
      rw [hLlen] at hslide
      have hnew_le : (lastWindow PS_WINDOW (psList xs ++ [p.1])).sum ≤ PS_WINDOW * 65535 := by
        apply lastWindow_sum_le
        intro x hx
        rcases List.mem_append.mp hx with hx1 | hx2
        · exact hpsb x hx1
        · simp at hx2
          omega
      have hkey : ((((lastWindow PS_WINDOW (psList xs)).sum : Int) -
            ((psList xs).getD (xs.length - PS_WINDOW) 0 : Int)) % (U32 : Int) +
            (p.1 : Int)) % (U32 : Int) =
          ((lastWindow PS_WINDOW (psList xs ++ [p.1])).sum : Int) := by
        rw [Int.emod_add_emod]
        have heq : ((lastWindow PS_WINDOW (psList xs)).sum : Int) -
            ((psList xs).getD (xs.length - PS_WINDOW) 0 : Int) + (p.1 : Int) =
            ((lastWindow PS_WINDOW (psList xs ++ [p.1])).sum : Int) := by
          omega
        rw [heq]
        exact Int.emod_eq_of_lt (by omega) (by omega)
      rw [hkey, Int.toNat_ofNat]
  · rw [update_alsWindowSum, hcount, alsList_concat]
    by_cases hfill : xs.length < ALS_WINDOW
    · rw [if_pos hfill, h.als_sum]
      have hself : lastWindow ALS_WINDOW (alsList xs) = alsList xs :=
        lastWindow_self_of_le _ _ (by omega)
      have hself2 : lastWindow ALS_WINDOW (alsList xs ++ [p.2]) = alsList xs ++ [p.2] :=
        lastWindow_self_of_le _ _ (by rw [List.length_append, List.length_singleton]; omega)
      have hsum : (alsList xs).sum ≤ xs.length * 65535 := by
        have hs := List.sum_le_card_nsmul (alsList xs) 65535 halsb
        rw [smul_eq_mul, hAlen] at hs
        exact hs
      rw [hself, hself2, List.sum_append, List.sum_singleton]
      exact Nat.mod_eq_of_lt (by omega)
    · rw [if_neg hfill]
      have hev := h.als_hist (xs.length - ALS_WINDOW) (by omega) (by omega)
      rw [hev, h.als_sum]
      have hslide := lastWindow_sum_slide ALS_WINDOW (alsList xs) p.2 (by omega) (by omega)
      rw [hAlen] at hslide
      have hnew_le : (lastWindow ALS_WINDOW (alsList xs ++ [p.2])).sum ≤ ALS_WINDOW * 65535 := by
        apply lastWindow_sum_le
        intro x hx
        rcases List.mem_append.mp hx with hx1 | hx2
        · exact halsb x hx1
        · simp at hx2
          omega
      have hkey : (((lastWindow ALS_WINDOW (alsList xs)).sum : Int) + (p.2 : Int) -
            ((alsList xs).getD (xs.length - ALS_WINDOW) 0 : Int)) % (U32 : Int) =
          ((lastWindow ALS_WINDOW (alsList xs ++ [p.2])).sum : Int) := by
        have heq : ((lastWindow ALS_WINDOW (alsList xs)).sum : Int) + (p.2 : Int) -
            ((alsList xs).getD (xs.length - ALS_WINDOW) 0 : Int) =
            ((lastWindow ALS_WINDOW (alsList xs ++ [p.2])).sum : Int) := by
          omega
        rw [heq]
        exact Int.emod_eq_of_lt (by omega) (by omega)
      rw [hkey, Int.toNat_ofNat]

theorem SInv_run (s0 : Sensor) (xs : List (Nat × Nat)) :
    xs.length < U32 → (∀ q ∈ xs, q.1 < U16 ∧ q.2 < U16) →
    SInv xs (runUpdates (Reset_Sensor s0) xs) := by
  induction xs using List.reverseRecOn with
  | nil =>
    intro _ _
    exact SInv_nil s0
  | append_singleton ys p ih =>
    intro hlen hb
    rw [List.length_append, List.length_singleton] at hlen
    rw [runUpdates_append_single]
    exact SInv_step ys p _ (fun q hq => hb q (List.mem_append_left _ hq))
      (hb p (List.mem_append_right _ (List.mem_singleton_self p))).1
      (hb p (List.mem_append_right _ (List.mem_singleton_self p))).2
      hlen
      (ih (by omega) (fun q hq => hb q (List.mem_append_left _ hq)))

/-- C1: along any sequence of fewer than 2 ^ 32 samples (each channel value a
uint16) fed to a freshly reset sensor, the PS window sum is the exact sum of
the last `min (sampleCount, PS_WINDOW)` proximity samples and the ALS window
sum is the exact sum of the last `min (sampleCount, ALS_WINDOW)` ambient
samples, the count taken after the calls. -/
theorem windowSums_match_history (s0 : Sensor) (xs : List (Nat × Nat))
    (hlen : xs.length < U32) (hb : ∀ q ∈ xs, q.1 < U16 ∧ q.2 < U16) :
    (runUpdates (Reset_Sensor s0) xs).psWindowSum =
      ((psList xs).drop (xs.length - min xs.length PS_WINDOW)).sum ∧
    (runUpdates (Reset_Sensor s0) xs).alsWindowSum =
      ((alsList xs).drop (xs.length - min xs.length ALS_WINDOW)).sum := by
  have h := SInv_run s0 xs hlen hb
  constructor
  · rw [h.ps_sum, lastWindow]
    have he : (psList xs).length - PS_WINDOW = xs.length - min xs.length PS_WINDOW := by
      rw [psList_length]
      omega
    rw [he]
  · rw [h.als_sum, lastWindow]
    have he : (alsList xs).length - ALS_WINDOW = xs.length - min xs.length ALS_WINDOW := by
      rw [alsList_length]
      omega
    rw [he]

/-- Witness for C1 on the two-sample sequence [(3,4),(5,6)]. -/
theorem windowSums_match_history_witness :
    (runUpdates (Reset_Sensor zeroSensor) [(3, 4), (5, 6)]).psWindowSum = 8 ∧
    (runUpdates (Reset_Sensor zeroSensor) [(3, 4), (5, 6)]).alsWindowSum = 10 := by
  have h := windowSums_match_history zeroSensor [(3, 4), (5, 6)]
    (by decide) (by decide)
  exact ⟨h.1.trans (by decide), h.2.trans (by decide)⟩

theorem lastWindow_sum_le_len (w : Nat) (l : List Nat) (c : Nat)
    (h : ∀ x ∈ l, x ≤ c) :
    (lastWindow w l).sum ≤ (lastWindow w l).length * c := by
  have h1 := List.sum_le_card_nsmul (lastWindow w l) c
    (fun x hx => h x (lastWindow_subset w l x hx))
  rw [smul_eq_mul] at h1
  exact h1

theorem div_lt_u16 (v m : Nat) (hm : 1 ≤ m) (hv : v ≤ m * 65535) : v / m < U16 := by
  have h1 : v / m ≤ m * 65535 / m := Nat.div_le_div_right hv
  rw [Nat.mul_div_cancel_left 65535 (by omega)] at h1
  have eU16 : U16 = 65536 := rfl
  omega

theorem psBound_of_hb (xs : List (Nat × Nat))
    (hb : ∀ q ∈ xs, q.1 < U16 ∧ q.2 < U16) : ∀ x ∈ psList xs, x ≤ 65535 := by
  intro x hx
  rcases List.mem_map.mp hx with ⟨q, hq, rfl⟩
  have := (hb q hq).1
  have eU16 : U16 = 65536 := rfl
  omega

theorem alsBound_of_hb (xs : List (Nat × Nat))
    (hb : ∀ q ∈ xs, q.1 < U16 ∧ q.2 < U16) : ∀ x ∈ alsList xs, x ≤ 65535 := by
  intro x hx
  rcases List.mem_map.mp hx with ⟨q, hq, rfl⟩
  have := (hb q hq).2
  have eU16 : U16 = 65536 := rfl
  omega

/-- C6: after every update of a trace from a reset state, psMean is the floor
of psWindowSum divided by `min (n, PS_WINDOW)` and alsMean is the floor of
alsWindowSum divided by `min (n, ALS_WINDOW)`, with n the number of samples
processed including the current one and the sums the post-call window sums
(natural-number division is the floor of the exact quotient). -/
theorem means_are_floored_window_averages (s0 : Sensor) (xs : List (Nat × Nat))
    (hne : xs ≠ []) (hlen : xs.length < U32)
    (hb : ∀ q ∈ xs, q.1 < U16 ∧ q.2 < U16) :
    (runUpdates (Reset_Sensor s0) xs).psMean =
      (runUpdates (Reset_Sensor s0) xs).psWindowSum / min xs.length PS_WINDOW ∧
    (runUpdates (Reset_Sensor s0) xs).alsMean =
      (runUpdates (Reset_Sensor s0) xs).alsWindowSum / min xs.length ALS_WINDOW := by
  have eW : PS_WINDOW = 25 := rfl
  have eWa : ALS_WINDOW = 25 := rfl
  rcases List.eq_nil_or_concat' xs with rfl | ⟨ys, p, rfl⟩
  · exact absurd rfl hne
  · have hys_len : ys.length < U32 := by
      rw [List.length_append, List.length_singleton] at hlen
      omega
    have hinv_ys : SInv ys (runUpdates (Reset_Sensor s0) ys) :=
      SInv_run s0 ys hys_len (fun q hq => hb q (List.mem_append_left _ hq))
    have hinv_xs : SInv (ys ++ [p]) (runUpdates (Reset_Sensor s0) (ys ++ [p])) :=
      SInv_run s0 _ hlen hb
    rw [runUpdates_append_single] at hinv_xs ⊢
    have hcount : (runUpdates (Reset_Sensor s0) ys).sampleCount = ys.length :=
      hinv_ys.count
    have hpsEff : psEff (runUpdates (Reset_Sensor s0) ys) =
        min (ys ++ [p]).length PS_WINDOW := by
      rw [psEff, hcount, List.length_append, List.length_singleton]
      split <;> omega
    have halsEff : alsEff (runUpdates (Reset_Sensor s0) ys) =
        min (ys ++ [p]).length ALS_WINDOW := by
      rw [alsEff, hcount, List.length_append, List.length_singleton]
      split <;> omega
    have hm1 : 1 ≤ min (ys ++ [p]).length PS_WINDOW := by
      rw [List.length_append, List.length_singleton]
      omega
    have hm1a : 1 ≤ min (ys ++ [p]).length ALS_WINDOW := by
      rw [List.length_append, List.length_singleton]
      omega
    constructor
    · rw [update_psMean, Nat.floor_div_nat, Nat.floor_natCast, hpsEff]
      apply Nat.mod_eq_of_lt
      apply div_lt_u16 _ _ hm1
      rw [hinv_xs.ps_sum]
      have hle := lastWindow_sum_le_len PS_WINDOW (psList (ys ++ [p])) 65535
        (psBound_of_hb _ hb)
      rw [lastWindow_length, psList_length] at hle
      omega
    · rw [update_alsMean, Nat.floor_div_nat, Nat.floor_natCast, halsEff]
      apply Nat.mod_eq_of_lt
      apply div_lt_u16 _ _ hm1a
      rw [hinv_xs.als_sum]
      have hle := lastWindow_sum_le_len ALS_WINDOW (alsList (ys ++ [p])) 65535
        (alsBound_of_hb _ hb)
      rw [lastWindow_length, alsList_length] at hle
      omega

/-- Witness for C6 on the two-sample sequence [(10,20),(20,40)]. -/
theorem means_are_floored_window_averages_witness :
    (runUpdates (Reset_Sensor zeroSensor) [(10, 20), (20, 40)]).psMean =
      (runUpdates (Reset_Sensor zeroSensor) [(10, 20), (20, 40)]).psWindowSum /
        min (List.length [(10, 20), (20, 40)]) PS_WINDOW ∧
    (runUpdates (Reset_Sensor zeroSensor) [(10, 20), (20, 40)]).alsMean =
      (runUpdates (Reset_Sensor zeroSensor) [(10, 20), (20, 40)]).alsWindowSum /
        min (List.length [(10, 20), (20, 40)]) ALS_WINDOW :=
  means_are_floored_window_averages zeroSensor [(10, 20), (20, 40)]
    (by decide) (by decide) (by decide)

theorem map_sum_eq_range_sum (f : Nat → ℚ) (l : List Nat) :
    (l.map f).sum = ∑ i ∈ Finset.range l.length, f (l.getD i 0) := by
  induction l with
  | nil => simp
  | cons a t ih =>
    rw [List.map_cons, List.sum_cons, ih, List.length_cons, Finset.sum_range_succ']
    simp [List.getD_cons_succ, List.getD_cons_zero, add_comm]

theorem getD_drop (l : List Nat) (n k : Nat) :
    (l.drop n).getD k 0 = l.getD (n + k) 0 := by
  rw [List.getD_eq_getElem?_getD, List.getD_eq_getElem?_getD, List.getElem?_drop]

theorem windowVariance_eq_zero (w : Nat) (l : List Nat)
    (hne : lastWindow w l ≠ [])
    (hall : ∀ x ∈ lastWindow w l, ∀ y ∈ lastWindow w l, x = y) :
    windowVariance w l = 0 := by
  obtain ⟨a, t, hL⟩ := List.exists_cons_of_ne_nil hne
  have hc : ∀ x ∈ lastWindow w l, x = a := fun x hx =>
    hall x hx a (by rw [hL]; exact List.mem_cons_self a t)
  have hrep : lastWindow w l = List.replicate (lastWindow w l).length a :=
    List.eq_replicate_of_mem hc
  have hlen0 : ((lastWindow w l).length : ℚ) ≠ 0 := by
    rw [hL, List.length_cons]
    exact_mod_cast Nat.succ_ne_zero t.length
  have hsum : ((lastWindow w l).sum : ℚ) = ((lastWindow w l).length : ℚ) * (a : ℚ) := by
    rw [hrep, List.sum_replicate, smul_eq_mul, List.length_replicate]
    push_cast
    ring
  have hmean : windowMean w l = (a : ℚ) := by
    rw [windowMean, hsum, mul_div_cancel_left₀ _ hlen0]
  rw [windowVariance, hmean, hrep, List.map_replicate]
  simp

theorem update_psSTDsq_eq (ys : List (Nat × Nat)) (p : Nat × Nat) (r : Sensor)
    (hinv_ys : SInv ys r)
    (hinv_xs : SInv (ys ++ [p]) (Update_Sensor r p.1 p.2)) :
    (Update_Sensor r p.1 p.2).psSTDsq =
      windowVariance PS_WINDOW (psList (ys ++ [p])) := by
  have eW : PS_WINDOW = 25 := rfl
  have e50 : SENSOR_HIST_LEN = 50 := rfl
  have hcount := hinv_ys.count
  have hLlen : (psList (ys ++ [p])).length = ys.length + 1 := by
    rw [psList_length, List.length_append, List.length_singleton]
  have heff : psEff r = min (ys.length + 1) 25 := by
    rw [psEff, hcount]
    split <;> omega
  have hwinlen : (lastWindow PS_WINDOW (psList (ys ++ [p]))).length = psEff r := by
    rw [lastWindow_length, hLlen, heff, eW]
  have hmu : windowMean PS_WINDOW (psList (ys ++ [p])) =
      ((Update_Sensor r p.1 p.2).psWindowSum : ℚ) / (psEff r : ℚ) := by
    rw [windowMean, hwinlen, hinv_xs.ps_sum]
  have hread : ∀ i, i < psEff r →
      (Update_Sensor r p.1 p.2).psHist (histSlot (r.sampleCount - i)) =
        (psList (ys ++ [p])).getD (ys.length - i) 0 := by
    intro i hi
    rw [hcount]
    exact hinv_xs.ps_hist (ys.length - i)
      (by rw [List.length_append, List.length_singleton]; omega)
      (by rw [List.length_append, List.length_singleton]; omega)
  have hdropD : ∀ k, (lastWindow PS_WINDOW (psList (ys ++ [p]))).getD k 0 =
      (psList (ys ++ [p])).getD ((psList (ys ++ [p])).length - PS_WINDOW + k) 0 := by
    intro k
    rw [lastWindow, getD_drop]
  rw [update_psSTDsq, windowVariance, hmu, hwinlen]
  congr 1
  rw [map_sum_eq_range_sum, hwinlen, ← Finset.sum_range_reflect]
  apply Finset.sum_congr rfl
  intro j hj
  have hj2 := Finset.mem_range.mp hj
  rw [hread (psEff r - 1 - j) (by omega), hdropD j]
  have hidx : ys.length - (psEff r - 1 - j) =
      (psList (ys ++ [p])).length - PS_WINDOW + j := by
    omega
  rw [hidx]

theorem update_alsSTDsq_eq (ys : List (Nat × Nat)) (p : Nat × Nat) (r : Sensor)
    (hinv_ys : SInv ys r)
    (hinv_xs : SInv (ys ++ [p]) (Update_Sensor r p.1 p.2)) :
    (Update_Sensor r p.1 p.2).alsSTDsq =
      windowVariance ALS_WINDOW (alsList (ys ++ [p])) := by
  have eW : ALS_WINDOW = 25 := rfl
  have e50 : SENSOR_HIST_LEN = 50 := rfl
  have hcount := hinv_ys.count
  have hLlen : (alsList (ys ++ [p])).length = ys.length + 1 := by
    rw [alsList_length, List.length_append, List.length_singleton]
  have heff : alsEff r = min (ys.length + 1) 25 := by
    rw [alsEff, hcount]
    split <;> omega
  have hwinlen : (lastWindow ALS_WINDOW (alsList (ys ++ [p]))).length = alsEff r := by
    rw [lastWindow_length, hLlen, heff, eW]
  have hmu : windowMean ALS_WINDOW (alsList (ys ++ [p])) =
      ((Update_Sensor r p.1 p.2).alsWindowSum : ℚ) / (alsEff r : ℚ) := by
    rw [windowMean, hwinlen, hinv_xs.als_sum]
  have hread : ∀ i, i < alsEff r →
      (Update_Sensor r p.1 p.2).alsHist (histSlot (r.sampleCount - i)) =
        (alsList (ys ++ [p])).getD (ys.length - i) 0 := by
    intro i hi
    rw [hcount]
    exact hinv_xs.als_hist (ys.length - i)
      (by rw [List.length_append, List.length_singleton]; omega)
      (by rw [List.length_append, List.length_singleton]; omega)
  have hdropD : ∀ k, (lastWindow ALS_WINDOW (alsList (ys ++ [p]))).getD k 0 =
      (alsList (ys ++ [p])).getD ((alsList (ys ++ [p])).length - ALS_WINDOW + k) 0 := by
    intro k
    rw [lastWindow, getD_drop]
  rw [update_alsSTDsq, windowVariance, hmu, hwinlen]
  congr 1
  rw [map_sum_eq_range_sum, hwinlen, ← Finset.sum_range_reflect]
  apply Finset.sum_congr rfl
  intro j hj
  have hj2 := Finset.mem_range.mp hj
  rw [hread (alsEff r - 1 - j) (by omega), hdropD j]
  have hidx : ys.length - (alsEff r - 1 - j) =
      (alsList (ys ++ [p])).length - ALS_WINDOW + j := by
    omega
  rw [hidx]

/-- C7: after every update of a trace from a reset state, the stored PS and
ALS standard-deviation radicands are exactly the brute-force mean squared
deviation of the active window from its exact (untruncated) mean — so the
standard deviations are the square roots of those quantities — and whenever
all samples of an active window are equal the corresponding standard
deviation is zero.  The bound 2 ^ 31 keeps the `(int) sampleCount` casts of
the STD loops faithful. -/
theorem std_zero_on_constant_window (s0 : Sensor) (xs : List (Nat × Nat))
    (hne : xs ≠ []) (hlen : xs.length < 2 ^ 31)
    (hb : ∀ q ∈ xs, q.1 < U16 ∧ q.2 < U16) :
    (runUpdates (Reset_Sensor s0) xs).psSTDsq =
      windowVariance PS_WINDOW (psList xs) ∧
    (runUpdates (Reset_Sensor s0) xs).alsSTDsq =
      windowVariance ALS_WINDOW (alsList xs) ∧
    ((∀ x ∈ lastWindow PS_WINDOW (psList xs), ∀ y ∈ lastWindow PS_WINDOW (psList xs),
        x = y) →
      Real.sqrt ((runUpdates (Reset_Sensor s0) xs).psSTDsq : ℝ) = 0) ∧
    ((∀ x ∈ lastWindow ALS_WINDOW (alsList xs), ∀ y ∈ lastWindow ALS_WINDOW (alsList xs),
        x = y) →
      Real.sqrt ((runUpdates (Reset_Sensor s0) xs).alsSTDsq : ℝ) = 0) := by
  have eW : PS_WINDOW = 25 := rfl
  have eWa : ALS_WINDOW = 25 := rfl
  have eU32 : U32 = 4294967296 := rfl
  rcases List.eq_nil_or_concat' xs with rfl | ⟨ys, p, rfl⟩
  · exact absurd rfl hne
  · have h32 : (ys ++ [p]).length < U32 := by
      rw [List.length_append, List.length_singleton] at hlen ⊢
      omega
    have hys_len : ys.length < U32 := by
      rw [List.length_append, List.length_singleton] at h32
      omega
    have hinv_ys := SInv_run s0 ys hys_len (fun q hq => hb q (List.mem_append_left _ hq))
    have hinv_xs := SInv_run s0 (ys ++ [p]) h32 hb
    rw [runUpdates_append_single] at hinv_xs ⊢
    have hps := update_psSTDsq_eq ys p _ hinv_ys hinv_xs
    have hals := update_alsSTDsq_eq ys p _ hinv_ys hinv_xs
    have hwne_ps : lastWindow PS_WINDOW (psList (ys ++ [p])) ≠ [] := by
      apply List.length_pos.mp
      rw [lastWindow_length, psList_length, List.length_append, List.length_singleton]
      omega
    have hwne_als : lastWindow ALS_WINDOW (alsList (ys ++ [p])) ≠ [] := by
      apply List.length_pos.mp
      rw [lastWindow_length, alsList_length, List.length_append, List.length_singleton]
      omega
    refine ⟨hps, hals, ?_, ?_⟩
    · intro hall
      rw [hps, windowVariance_eq_zero _ _ hwne_ps hall]
      simp
    · intro hall
      rw [hals, windowVariance_eq_zero _ _ hwne_als hall]
      simp

/-- Witness for C7 on the constant two-sample sequence [(7,9),(7,9)]. -/
theorem std_zero_on_constant_window_witness :
    Real.sqrt ((runUpdates (Reset_Sensor zeroSensor) [(7, 9), (7, 9)]).psSTDsq : ℝ) = 0 ∧
    Real.sqrt ((runUpdates (Reset_Sensor zeroSensor) [(7, 9), (7, 9)]).alsSTDsq : ℝ) = 0 := by
  have h := std_zero_on_constant_window zeroSensor [(7, 9), (7, 9)]
    (by decide) (by decide) (by decide)
  exact ⟨h.2.2.1 (by decide), h.2.2.2 (by decide)⟩
